import Mathlib

/-!
Shallow embedding of the drf_ecommerce core: the soft-delete entity layer
(src/apps/common/models.py) and the cart / checkout / review operations
(src/apps/shop/views.py), with theorems settling the spec's claims.

Stores are modelled as lists of records; timestamps and primary keys are
natural numbers.  The `id` primary key of `BaseModel` is a UUID4
(`models.UUIDField(default=uuid.uuid4, primary_key=True)`), i.e. a random
value with no relation to creation order, so it is modelled as an arbitrary
`Nat` chosen independently of `created_at`.
-/

/-- Generic row of a soft-deletable table (src/apps/common/models.py,
`BaseModel` + `IsDeletedModel`): `id` is the UUID4 primary key,
`created_at` / `updated_at` the auto-maintained timestamps,
`is_deleted` / `deleted_at` the soft-delete columns, and `payload` stands for
the remaining concrete columns of the entity. -/
structure Row where
  id : Nat
  created_at : Nat
  updated_at : Nat
  is_deleted : Bool
  deleted_at : Option Nat
  payload : Nat
  deriving DecidableEq, Repr

/-- Ordering relation of `IsDeletedModel.Meta.ordering = ['-id']`: descending by
the (random, UUID4) primary key. -/
def idGe (a b : Row) : Prop := b.id ≤ a.id

instance : DecidableRel idGe := fun a b => Nat.decLe b.id a.id

instance : IsTotal Row idGe := ⟨fun a b => Nat.le_total b.id a.id⟩

instance : IsTrans Row idGe := ⟨fun _ _ _ h1 h2 => Nat.le_trans h2 h1⟩

/-- Default ordering clause applied to every queryset of an `IsDeletedModel`
(`Meta.ordering = ['-id']`): sort descending by `id`. -/
def orderByIdDesc (s : List Row) : List Row :=
  List.insertionSort idGe s

/-- IsDeletedManager.get_queryset (src/apps/common/models.py:37-39): the default
query path, filtering `is_deleted=False`, with the model's default ordering. -/
def get_queryset (s : List Row) : List Row :=
  orderByIdDesc (s.filter (fun r => !r.is_deleted))

/-- IsDeletedManager.unfiltered (src/apps/common/models.py:41-42): the whole
table with no soft-delete filter (default ordering still applies). -/
def unfiltered (s : List Row) : List Row :=
  orderByIdDesc s

/-- IsDeletedModel.delete (src/apps/common/models.py:58-62), the soft delete:
sets `is_deleted = True` and `deleted_at = now` on the row with primary key
`pk` and persists exactly those two columns, via
`self.save(update_fields=["is_deleted", "deleted_at"])`.  Every other column
of the row, and every other row, is untouched. -/
def softDelete (s : List Row) (pk now : Nat) : List Row :=
  s.map (fun r =>
    if r.id = pk then { r with is_deleted := true, deleted_at := some now } else r)

/-- IsDeletedQuerySet.delete with `hard_delete=False`
(src/apps/common/models.py:30-34): a bulk
`update(is_deleted=True, deleted_at=now)` over the rows matching `cond`. -/
def qsSoftDelete (s : List Row) (cond : Row → Bool) (now : Nat) : List Row :=
  s.map (fun r =>
    if cond r then { r with is_deleted := true, deleted_at := some now } else r)

/-- Concrete store for the ordering counterexample: the row created first
(`created_at = 1`) happened to draw the larger random UUID (`id = 10`), the row
created second (`created_at = 2`) the smaller one (`id = 3`).  Both draws occur
with `uuid.uuid4`. -/
def exOrderStore : List Row :=
  [⟨10, 1, 1, false, none, 0⟩, ⟨3, 2, 2, false, none, 0⟩]

/-- Product row (apps/shop/models.py is not part of src; only the fields the
views under src/apps/shop/views.py read are modelled: the primary key and the
unique `slug` used as lookup key, per the spec's data model). -/
structure ProductRec where
  pid : Nat
  slug : String
  deriving DecidableEq, Repr

/-- OrderItem row (apps/profiles/models.py is not part of src).  Modelled from
the spec: belongs to one user, references one Product, has a `quantity`,
optionally belongs to an Order (`order = none` means "still in cart").  Its
delete method is `IsDeletedModel.delete` (src/apps/common/models.py:58-62), the
soft delete of the SoftDeleteStore base, so the soft-delete columns are
carried here; `itemId` is the UUID4 primary key. -/
structure OrderItemRec where
  itemId : Nat
  user : Nat
  productId : Nat
  quantity : Nat
  order : Option Nat
  is_deleted : Bool
  deleted_at : Option Nat
  deriving DecidableEq, Repr

/-- ShippingAddress row (apps/profiles/models.py is not part of src).  Modelled
from the spec: the seven shipping fields read by CheckoutView.post
(src/apps/shop/views.py:248-260) plus the primary key used for lookup. -/
structure ShippingAddress where
  said : Nat
  full_name : String
  email : String
  phone : String
  address : String
  city : String
  country : String
  zipcode : String
  deriving DecidableEq, Repr

/-- Order row (apps/profiles/models.py is not part of src).  Modelled from the
spec: belongs to one user and snapshots the seven shipping fields copied at
creation time (src/apps/shop/views.py:262). -/
structure OrderRec where
  oid : Nat
  user : Nat
  full_name : String
  email : String
  phone : String
  address : String
  city : String
  country : String
  zipcode : String
  deriving DecidableEq, Repr

/-- Review row (apps/shop/models.py is not part of src).  Modelled from the
spec: belongs to one user and one Product, with `rating` and `text`; its
queryset delete is `IsDeletedQuerySet.delete` (src/apps/common/models.py:30-34,
soft by default), so the soft-delete columns are carried; `rid` is the UUID4
primary key. -/
structure ReviewRec where
  rid : Nat
  user : Nat
  productId : Nat
  rating : Nat
  text : String
  is_deleted : Bool
  deleted_at : Option Nat
  deriving DecidableEq, Repr

/-- Persistent state the shop views read and write.  `nextId` supplies the next
fresh primary key (UUID4 draws are modelled as fresh numbers). -/
structure ShopState where
  products : List ProductRec
  items : List OrderItemRec
  orders : List OrderRec
  addresses : List ShippingAddress
  reviews : List ReviewRec
  nextId : Nat
  deriving DecidableEq, Repr

/-- Lookup predicate of the cart upsert
(`OrderItem.objects.update_or_create(user=user, order_id=None, product=product)`,
src/apps/shop/views.py:197-202): a live (not soft-deleted, since the default
manager filters `is_deleted=False`) cart row of this user for this product. -/
def liveCartRow (u pid : Nat) (i : OrderItemRec) : Bool :=
  i.user = u && i.productId = pid && i.order = none && !i.is_deleted

/-- Result kind of CartView.post, read off the `resp_message_substring` the
view puts in its response: "Added To" / "Updated In" / "Removed From" Cart
(src/apps/shop/views.py:203-215). -/
inductive ToggleKind
  | Added
  | Updated
  | Removed
  deriving DecidableEq, Repr

/-- Outcome of CartView.post (src/apps/shop/views.py:187-215): a 404 when no
product carries the slug, otherwise the result kind plus the (null when
Removed) item snapshot. -/
inductive ToggleOutcome
  | productNotFound
  | ok (kind : ToggleKind) (item : Option OrderItemRec)
  deriving DecidableEq, Repr

/-- CartView.post (src/apps/shop/views.py:187-215), `toggleItem` of the spec.
Steps, in source order: resolve the product by slug with `get_or_none`;
`update_or_create` the cart row keyed (user, order=None, product) setting
`quantity` absolutely; when the resulting quantity is 0, call
`orderitem.delete()` — which is `IsDeletedModel.delete`, the soft delete — and
answer Removed with a null item; otherwise answer Added (row created) or
Updated (row existed) with the item snapshot. -/
def toggleItem (st : ShopState) (u : Nat) (slug : String) (quantity now : Nat) :
    ToggleOutcome × ShopState :=
  match st.products.find? (fun p => p.slug = slug) with
  | none => (.productNotFound, st)
  | some p =>
    match st.items.find? (liveCartRow u p.pid) with
    | some it =>
      let it2 : OrderItemRec := { it with quantity := quantity }
      let items1 := st.items.map (fun j => if j.itemId = it.itemId then it2 else j)
      if quantity = 0 then
        let items2 := items1.map (fun j =>
          if j.itemId = it.itemId then { j with is_deleted := true, deleted_at := some now } else j)
        (.ok .Removed none, { st with items := items2 })
      else
        (.ok .Updated (some it2), { st with items := items1 })
    | none =>
      let newIt : OrderItemRec := ⟨st.nextId, u, p.pid, quantity, none, false, none⟩
      let items1 := st.items ++ [newIt]
      if quantity = 0 then
        let items2 := items1.map (fun j =>
          if j.itemId = newIt.itemId then { j with is_deleted := true, deleted_at := some now } else j)
        (.ok .Removed none, { st with items := items2, nextId := st.nextId + 1 })
      else
        (.ok .Added (some newIt), { st with items := items1, nextId := st.nextId + 1 })

/-- Queryset `OrderItem.objects.filter(user=user, order=None)` evaluated by
CheckoutView.post (src/apps/shop/views.py:234) — the user's cart.  The default
manager additionally filters `is_deleted=False`. -/
def userCart (st : ShopState) (u : Nat) : List OrderItemRec :=
  st.items.filter (fun i => i.user = u && i.order = none && !i.is_deleted)

/-- Outcome of CheckoutView.post (src/apps/shop/views.py:231-266).
`shippingUnbound` is the unhandled `UnboundLocalError`: when the validated data
carries no `shipping_id`, the `if shipping_id:` block that binds `shipping` is
skipped, yet line 259 reads `getattr(shipping, field)`. -/
inductive CheckoutOutcome
  | emptyCart
  | shippingNotFound
  | shippingUnbound
  | success (o : OrderRec)
  deriving DecidableEq, Repr

/-- CheckoutView.post (src/apps/shop/views.py:231-266), `checkout` of the spec.
Steps, in source order: load the user's cart and fail with "No Items in Cart"
when empty; when a `shipping_id` was supplied, resolve the ShippingAddress with
`get_or_none` and fail when absent (when none was supplied the later read of
`shipping` raises unbound); copy the seven shipping fields into a fresh Order
owned by the user; re-parent the cart queryset onto it with
`orderitems.update(order=order)`. -/
def checkout (st : ShopState) (u : Nat) (shipping_id : Option Nat) :
    CheckoutOutcome × ShopState :=
  if (userCart st u).isEmpty then (.emptyCart, st)
  else
    match shipping_id with
    | none => (.shippingUnbound, st)
    | some sid =>
      match st.addresses.find? (fun a => a.said = sid) with
      | none => (.shippingNotFound, st)
      | some shipping =>
        let o : OrderRec :=
          ⟨st.nextId, u, shipping.full_name, shipping.email, shipping.phone,
            shipping.address, shipping.city, shipping.country, shipping.zipcode⟩
        let items1 := st.items.map (fun i =>
          if i.user = u && i.order = none && !i.is_deleted
          then { i with order := some o.oid } else i)
        (.success o, { st with orders := st.orders ++ [o], items := items1,
                               nextId := st.nextId + 1 })

/-- Lookup predicate of the review upsert
(`Review.objects.update_or_create(user=request.user, product=product)`,
src/apps/shop/views.py:326-333): the live review of this user for this product
(the default manager filters `is_deleted=False`). -/
def liveReview (u pid : Nat) (r : ReviewRec) : Bool :=
  r.user = u && r.productId = pid && !r.is_deleted

/-- Outcome of ReviewViewsPost.post (src/apps/shop/views.py:314-342): 404 when
the product id resolves to nothing, otherwise 201 Created or 200 Updated with
the current review snapshot. -/
inductive ReviewOutcome
  | productNotFound
  | created (r : ReviewRec)
  | updated (r : ReviewRec)
  deriving DecidableEq, Repr

/-- ReviewViewsPost.post (src/apps/shop/views.py:314-342), `submitReview` of
the spec.  Steps, in source order: strict product lookup by id
(`Product.objects.get`, 404 on `DoesNotExist`); `update_or_create` the review
keyed (user, product) overwriting `rating` and `text`; answer Created (201)
when a row was created, Updated (200) when an existing row was overwritten. -/
def submitReview (st : ShopState) (u pid rating : Nat) (text : String) :
    ReviewOutcome × ShopState :=
  match st.products.find? (fun p => p.pid = pid) with
  | none => (.productNotFound, st)
  | some p =>
    match st.reviews.find? (liveReview u p.pid) with
    | some r =>
      let r2 : ReviewRec := { r with rating := rating, text := text }
      (.updated r2,
        { st with reviews := st.reviews.map (fun j => if j.rid = r.rid then r2 else j) })
    | none =>
      let r : ReviewRec := ⟨st.nextId, u, p.pid, rating, text, false, none⟩
      (.created r, { st with reviews := st.reviews ++ [r], nextId := st.nextId + 1 })

/-- Truthiness of the name `product` at src/apps/shop/views.py:355.  The
delete view never assigns `product`; the name resolves to the module-level
`from itertools import product` (line 1), a function object, which is truthy —
so `if not product:` is always False and the guarded 404 return is dead code. -/
def productNameTruthy : Bool := true

/-- Outcome of ReviewViewsDelete.delete (src/apps/shop/views.py:353-359): the
dead 404 branch, or the 200 "deleted" answer. -/
inductive DeleteReviewOutcome
  | productNotFound
  | deletedOk
  deriving DecidableEq, Repr

/-- ReviewViewsDelete.delete (src/apps/shop/views.py:353-359), `deleteReview`
of the spec.  Steps, in source order: build the queryset
`Review.objects.filter(id=reviewId, user_id=user)` (default manager, so only
live rows match); the `if not product:` guard never fires (see
`productNameTruthy`); `reviews.delete()` is `IsDeletedQuerySet.delete` with
`hard_delete=False`, a bulk soft delete of the matching rows. -/
def deleteReview (st : ShopState) (reviewId u now : Nat) :
    DeleteReviewOutcome × ShopState :=
  if !productNameTruthy then (.productNotFound, st)
  else
    (.deletedOk,
      { st with reviews := st.reviews.map (fun r =>
          if r.rid = reviewId && r.user = u && !r.is_deleted
          then { r with is_deleted := true, deleted_at := some now } else r) })

/-! Helper lemmas shared by several claims. -/

/-- Membership is unchanged by the default ordering clause. -/
lemma mem_orderByIdDesc {a : Row} {s : List Row} : a ∈ orderByIdDesc s ↔ a ∈ s :=
  (List.perm_insertionSort idGe s).mem_iff

/-- In a list whose keys are pairwise distinct, two members with the same key
are the same element. -/
lemma key_inj_of_pairwise {α : Type} (key : α → Nat) {l : List α}
    (hl : l.Pairwise (fun a b => key a ≠ key b))
    {x y : α} (hx : x ∈ l) (hy : y ∈ l) (hk : key x = key y) : x = y := by
  induction l with
  | nil => cases hx
  | cons a l ih =>
    obtain ⟨ha, hl2⟩ := List.pairwise_cons.mp hl
    cases hx with
    | head =>
      cases hy with
      | head => rfl
      | tail _ hy2 => exact absurd hk (ha y hy2)
    | tail _ hx2 =>
      cases hy with
      | head => exact absurd hk.symm (ha x hx2)
      | tail _ hy2 => exact ih hl2 hx2 hy2

/-- In a list whose keys are pairwise distinct, filtering on the key of a
member keeps exactly that member. -/
lemma filter_key_eq {α : Type} (key : α → Nat) {l : List α} {it : α}
    (hl : l.Pairwise (fun a b => key a ≠ key b)) (hmem : it ∈ l) :
    l.filter (fun j => key j = key it) = [it] := by
  induction l with
  | nil => cases hmem
  | cons a l ih =>
    obtain ⟨ha, hl2⟩ := List.pairwise_cons.mp hl
    cases hmem with
    | head =>
      have h1 : l.filter (fun j => key j = key it) = [] := by
        rw [List.filter_eq_nil_iff]
        intro b hb
        simpa using (ha b hb).symm
      simpa [List.filter_cons] using h1
    | tail _ hmem2 =>
      have h1 : ¬ (key a = key it) := by
        intro h
        exact ha it hmem2 h
      simp [List.filter_cons, h1, ih hl2 hmem2]

/-- Replacing, by key, the element that `find?` returned with an element that
still satisfies the predicate makes `find?` return the replacement. -/
lemma find?_map_key {α : Type} (key : α → Nat) (pred : α → Bool) {l : List α}
    {it it2 : α}
    (hl : l.Pairwise (fun a b => key a ≠ key b))
    (hfind : l.find? pred = some it)
    (hpred2 : pred it2 = true) :
    (l.map (fun j => if key j = key it then it2 else j)).find? pred = some it2 := by
  induction l with
  | nil => cases hfind
  | cons a l ih =>
    obtain ⟨ha, hl2⟩ := List.pairwise_cons.mp hl
    by_cases hpa : pred a = true
    · rw [List.find?_cons_of_pos _ hpa] at hfind
      have haeq : a = it := by injection hfind
      subst haeq
      simp [List.find?_cons_of_pos _ hpred2]
    · rw [List.find?_cons_of_neg _ hpa] at hfind
      have hmem : it ∈ l := List.mem_of_find?_eq_some hfind
      have hane : key a ≠ key it := ha it hmem
      simp only [List.map_cons, if_neg hane]
      rw [List.find?_cons_of_neg _ hpa]
      exact ih hl2 hfind

/-! Claim theorems. -/

/-- C4: for every user whose cart is empty (no live OrderItem with
`order = null`), checkout fails with the EmptyCart typed failure ("No Items in
Cart", 404) and the persisted state is unchanged: no Order is created and no
OrderItem is modified. -/
theorem checkout_empty_cart_fails (st : ShopState) (u : Nat) (sid : Option Nat)
    (h : userCart st u = []) :
    checkout st u sid = (.emptyCart, st) := by
  simp [checkout, h]

/-- Shared concrete state: one product, one live cart item of user 7 (quantity
2), one shipping address, fresh ids from 11. -/
def exCartSt : ShopState :=
  ⟨[⟨1, "p"⟩], [⟨10, 7, 1, 2, none, false, none⟩], [],
    [⟨5, "Ann Smith", "a@x.io", "123", "1 Road", "Town", "Land", "00001"⟩], [], 11⟩

/-- Shared concrete state with an empty cart. -/
def exEmptySt : ShopState := ⟨[⟨1, "p"⟩], [], [], [], [], 2⟩

theorem checkout_empty_cart_fails_witness :
    userCart exEmptySt 7 = [] ∧ checkout exEmptySt 7 (some 5) = (.emptyCart, exEmptySt) :=
  ⟨rfl, checkout_empty_cart_fails exEmptySt 7 (some 5) rfl⟩

/-- C10: for every checkout call where the user's cart is non-empty but the
validated data contains no `shipping_id`, the `if shipping_id:` block that
binds `shipping` is skipped and line 259 reads the unbound local — an
unhandled error rather than a typed failure; it occurs before any Order is
created, so the state is unchanged: no Order exists and no OrderItem is
re-parented. -/
theorem checkout_missing_shipping_raises (st : ShopState) (u : Nat)
    (h : userCart st u ≠ []) :
    checkout st u none = (.shippingUnbound, st) := by
  have h2 : (userCart st u).isEmpty = false := by
    cases hc : userCart st u with
    | nil => exact absurd hc h
    | cons a l => rfl
  simp [checkout, h2]

theorem checkout_missing_shipping_raises_witness :
    userCart exCartSt 7 ≠ [] ∧ checkout exCartSt 7 none = (.shippingUnbound, exCartSt) :=
  ⟨by decide, checkout_missing_shipping_raises exCartSt 7 (by decide)⟩

/-- C3: for every entity extending the soft-deletable base, after delete with
`hard=false` (the instance delete of IsDeletedModel is exactly this soft path)
default (filtered) queries never return that entity, the `unfiltered()` query
path still returns it, and its `deleted_at` field is non-null. -/
theorem soft_delete_hidden_from_default_query (s : List Row) (pk now : Nat)
    (r0 : Row) (hmem : r0 ∈ s) (hid : r0.id = pk) :
    (∀ r ∈ get_queryset (softDelete s pk now), r.id ≠ pk) ∧
    (∃ r ∈ unfiltered (softDelete s pk now), r.id = pk ∧ r.deleted_at ≠ none) := by
  constructor
  · intro r hr
    rw [get_queryset, mem_orderByIdDesc, List.mem_filter] at hr
    obtain ⟨hrm, hlive⟩ := hr
    rw [softDelete, List.mem_map] at hrm
    obtain ⟨a, _, hae⟩ := hrm
    by_cases h : a.id = pk
    · rw [if_pos h] at hae
      rw [← hae] at hlive
      simp at hlive
    · rw [if_neg h] at hae
      rw [← hae]
      exact h
  · refine ⟨{ r0 with is_deleted := true, deleted_at := some now }, ?_, hid, by simp⟩
    rw [unfiltered, mem_orderByIdDesc, softDelete, List.mem_map]
    exact ⟨r0, hmem, by rw [if_pos hid]⟩

theorem soft_delete_hidden_witness :
    (⟨4, 0, 0, false, none, 9⟩ : Row) ∈ ([⟨4, 0, 0, false, none, 9⟩] : List Row) ∧
    (⟨4, 0, 0, false, none, 9⟩ : Row).id = 4 ∧
    ((∀ r ∈ get_queryset (softDelete [⟨4, 0, 0, false, none, 9⟩] 4 3), r.id ≠ 4) ∧
      (∃ r ∈ unfiltered (softDelete [⟨4, 0, 0, false, none, 9⟩] 4 3),
        r.id = 4 ∧ r.deleted_at ≠ none)) :=
  ⟨by decide, rfl,
    soft_delete_hidden_from_default_query [⟨4, 0, 0, false, none, 9⟩] 4 3
      ⟨4, 0, 0, false, none, 9⟩ (by decide) rfl⟩

/-- C8: a soft delete (`hard=false`) of an entity persists exactly the two
fields `is_deleted` (set true) and `deleted_at` (set to the current time) —
`save(update_fields=["is_deleted", "deleted_at"])` — leaving every other field
of that entity unchanged; no cascading-delete side effect touches related
rows: every other row of the store survives unchanged, at its position. -/
theorem soft_delete_frame (s : List Row) (pk now i : Nat) (r : Row)
    (h : s[i]? = some r) :
    (softDelete s pk now).length = s.length ∧
    ∃ r2, (softDelete s pk now)[i]? = some r2 ∧
      r2.id = r.id ∧ r2.created_at = r.created_at ∧ r2.updated_at = r.updated_at ∧
      r2.payload = r.payload ∧
      (r.id = pk → r2.is_deleted = true ∧ r2.deleted_at = some now) ∧
      (r.id ≠ pk → r2 = r) := by
  refine ⟨by simp [softDelete], ?_⟩
  rw [softDelete, List.getElem?_map, h, Option.map_some']
  by_cases hpk : r.id = pk
  · rw [if_pos hpk]
    exact ⟨_, rfl, rfl, rfl, rfl, rfl, fun _ => ⟨rfl, rfl⟩, fun hn => absurd hpk hn⟩
  · rw [if_neg hpk]
    exact ⟨r, rfl, rfl, rfl, rfl, rfl, fun hy => absurd hy hpk, fun _ => rfl⟩

theorem soft_delete_frame_witness :
    ([⟨4, 1, 2, false, none, 9⟩, ⟨6, 1, 2, false, none, 8⟩] : List Row)[1]? =
      some ⟨6, 1, 2, false, none, 8⟩ ∧
    ((softDelete [⟨4, 1, 2, false, none, 9⟩, ⟨6, 1, 2, false, none, 8⟩] 4 3).length = 2 ∧
      ∃ r2, (softDelete [⟨4, 1, 2, false, none, 9⟩, ⟨6, 1, 2, false, none, 8⟩] 4 3)[1]? =
          some r2 ∧
        r2.id = (⟨6, 1, 2, false, none, 8⟩ : Row).id ∧
        r2.created_at = (⟨6, 1, 2, false, none, 8⟩ : Row).created_at ∧
        r2.updated_at = (⟨6, 1, 2, false, none, 8⟩ : Row).updated_at ∧
        r2.payload = (⟨6, 1, 2, false, none, 8⟩ : Row).payload ∧
        ((⟨6, 1, 2, false, none, 8⟩ : Row).id = 4 →
          r2.is_deleted = true ∧ r2.deleted_at = some 3) ∧
        ((⟨6, 1, 2, false, none, 8⟩ : Row).id ≠ 4 → r2 = ⟨6, 1, 2, false, none, 8⟩)) :=
  ⟨rfl, soft_delete_frame [⟨4, 1, 2, false, none, 9⟩, ⟨6, 1, 2, false, none, 8⟩] 4 3 1
    ⟨6, 1, 2, false, none, 8⟩ rfl⟩

/-- C7, counterexample: the default ordering is `ordering = ['-id']` on the
random UUID4 primary key, not creation time.  In `exOrderStore` the row
created first drew the larger id, so the default read returns it first — the
output is not descending by `created_at`. -/
theorem default_order_not_creation_order :
    ¬ List.Pairwise (fun a b : Row => b.created_at ≤ a.created_at)
        (get_queryset exOrderStore) := by
  decide

/-- C7, amended: for every read over soft-deletable entities, the default
ordering of results is descending by the primary key `id`
(`Meta.ordering = ['-id']`); since `id` is a random UUID4, this does not in
general coincide with most-recently-created first. -/
theorem default_order_by_id_desc (s : List Row) :
    List.Pairwise (fun a b : Row => b.id ≤ a.id) (get_queryset s) :=
  List.sorted_insertionSort idGe (s.filter (fun r => !r.is_deleted))

/-- C1: for every user with at least one live cart item and a `shipping_id`
resolving to an existing ShippingAddress, checkout creates exactly one new
Order owned by that user (the order list grows by exactly that order),
re-parents every cart item onto it, leaves every non-cart row untouched, and
the Order's seven shipping fields equal the ShippingAddress's fields at the
time of checkout. -/
theorem checkout_snapshots_shipping_and_reparents (st : ShopState) (u sid : Nat)
    (addr : ShippingAddress)
    (hcart : userCart st u ≠ [])
    (haddr : st.addresses.find? (fun a => a.said = sid) = some addr) :
    ∃ o : OrderRec,
      (checkout st u (some sid)).1 = .success o ∧
      o.user = u ∧
      o.full_name = addr.full_name ∧ o.email = addr.email ∧ o.phone = addr.phone ∧
      o.address = addr.address ∧ o.city = addr.city ∧ o.country = addr.country ∧
      o.zipcode = addr.zipcode ∧
      (checkout st u (some sid)).2.orders = st.orders ++ [o] ∧
      (checkout st u (some sid)).2.items.length = st.items.length ∧
      (∀ i ∈ st.items, i ∈ userCart st u →
        { i with order := some o.oid } ∈ (checkout st u (some sid)).2.items) ∧
      (∀ i ∈ st.items, i ∉ userCart st u → i ∈ (checkout st u (some sid)).2.items) := by
  have h2 : (userCart st u).isEmpty = false := by
    cases hc : userCart st u with
    | nil => exact absurd hc hcart
    | cons a l => rfl
  refine ⟨⟨st.nextId, u, addr.full_name, addr.email, addr.phone, addr.address,
    addr.city, addr.country, addr.zipcode⟩, ?_, rfl, rfl, rfl, rfl, rfl, rfl, rfl, rfl,
    ?_, ?_, ?_, ?_⟩
  · simp [checkout, h2, haddr]
  · simp [checkout, h2, haddr]
  · simp [checkout, h2, haddr]
  · intro i hi hic
    have hp : (i.user = u && i.order = none && !i.is_deleted) = true :=
      (List.mem_filter.mp hic).2
    simp only [Bool.and_eq_true] at hp
    simp [checkout, h2, haddr, List.mem_map]
    refine ⟨i, hi, ?_⟩
    have hc : (i.user = u ∧ i.order = none) ∧ i.is_deleted = false :=
      ⟨⟨of_decide_eq_true hp.1.1, of_decide_eq_true hp.1.2⟩, by simpa using hp.2⟩
    rw [if_pos hc]
  · intro i hi hic
    have hp : ¬ (i.user = u && i.order = none && !i.is_deleted) = true := by
      intro hc
      exact hic (List.mem_filter.mpr ⟨hi, hc⟩)
    simp only [Bool.and_eq_true, not_and] at hp
    simp [checkout, h2, haddr, List.mem_map]
    refine ⟨i, hi, ?_⟩
    have hc : ¬ ((i.user = u ∧ i.order = none) ∧ i.is_deleted = false) := by
      rintro ⟨⟨ha, hb⟩, h3⟩
      exact hp ⟨decide_eq_true ha, decide_eq_true hb⟩ (by simp [h3])
    rw [if_neg hc]

theorem checkout_snapshots_witness :
    userCart exCartSt 7 ≠ [] ∧
    exCartSt.addresses.find? (fun a => a.said = 5) =
      some ⟨5, "Ann Smith", "a@x.io", "123", "1 Road", "Town", "Land", "00001"⟩ ∧
    (∃ o : OrderRec,
      (checkout exCartSt 7 (some 5)).1 = .success o ∧
      o.user = 7 ∧
      o.full_name = "Ann Smith" ∧ o.email = "a@x.io" ∧ o.phone = "123" ∧
      o.address = "1 Road" ∧ o.city = "Town" ∧ o.country = "Land" ∧
      o.zipcode = "00001" ∧
      (checkout exCartSt 7 (some 5)).2.orders = exCartSt.orders ++ [o] ∧
      (checkout exCartSt 7 (some 5)).2.items.length = exCartSt.items.length ∧
      (∀ i ∈ exCartSt.items, i ∈ userCart exCartSt 7 →
        { i with order := some o.oid } ∈ (checkout exCartSt 7 (some 5)).2.items) ∧
      (∀ i ∈ exCartSt.items, i ∉ userCart exCartSt 7 →
        i ∈ (checkout exCartSt 7 (some 5)).2.items)) :=
  ⟨by decide, by rfl,
    checkout_snapshots_shipping_and_reparents exCartSt 7 5
      ⟨5, "Ann Smith", "a@x.io", "123", "1 Road", "Town", "Land", "00001"⟩
      (by decide) (by rfl)⟩

/-- C2, counterexample: user 7 has a live cart row for product 1 in
`exCartSt`; toggling with quantity 0 does not physically remove it — a row
keyed (user 7, product 1, order = null) is still present in the OrderItem
table afterwards (it was soft-deleted by `IsDeletedModel.delete`, not
hard-deleted). -/
theorem toggle_zero_leaves_row_behind :
    ¬ (∀ i ∈ (toggleItem exCartSt 7 "p" 0 5).2.items,
        ¬(i.user = 7 ∧ i.productId = 1 ∧ i.order = none)) := by
  decide

/-- C2, amended: for every call of `toggleItem` with quantity 0 against an
existing product, the upsert runs first (creating the row when absent), and
the resulting row is then soft-deleted via `IsDeletedModel.delete`: afterwards
no live cart row for (user, product, order = null) remains — so default
queries no longer see it — but a row for that key persists physically with
`is_deleted = true` and `deleted_at` set; the result kind is Removed with a
null item payload. -/
theorem toggle_zero_soft_deletes (st : ShopState) (u now : Nat) (slug : String)
    (p : ProductRec)
    (hp : st.products.find? (fun pr => pr.slug = slug) = some p)
    (hfresh : ∀ i ∈ st.items, i.itemId ≠ st.nextId)
    (huniq : ∀ i ∈ st.items, ∀ j ∈ st.items,
      liveCartRow u p.pid i = true → liveCartRow u p.pid j = true → i = j) :
    (toggleItem st u slug 0 now).1 = .ok .Removed none ∧
    (toggleItem st u slug 0 now).2.items.filter (liveCartRow u p.pid) = [] ∧
    ∃ i ∈ (toggleItem st u slug 0 now).2.items,
      i.user = u ∧ i.productId = p.pid ∧ i.order = none ∧
      i.is_deleted = true ∧ i.deleted_at = some now := by
  cases hfind : st.items.find? (liveCartRow u p.pid) with
  | none =>
    have hnolive : ∀ i ∈ st.items, ¬ liveCartRow u p.pid i = true :=
      List.find?_eq_none.mp hfind
    have h0 : ∀ j ∈ st.items,
        (if j.itemId = st.nextId
          then { j with is_deleted := true, deleted_at := some now } else j) = id j :=
      fun j hj => by rw [if_neg (hfresh j hj)]; rfl
    have hmapid : st.items.map
        (fun j => if j.itemId = st.nextId
          then { j with is_deleted := true, deleted_at := some now } else j) = st.items := by
      rw [List.map_congr_left h0, List.map_id]
    have hnew : List.map
        (fun j => if j.itemId = st.nextId
          then { j with is_deleted := true, deleted_at := some now } else j)
        [(⟨st.nextId, u, p.pid, 0, none, false, none⟩ : OrderItemRec)] =
        [⟨st.nextId, u, p.pid, 0, none, true, some now⟩] := by
      simp
    simp only [toggleItem, hp, hfind, List.map_append, hmapid, hnew]
    refine ⟨rfl, ?_, ?_⟩
    · have hgoal : List.filter (liveCartRow u p.pid)
          (st.items ++ [⟨st.nextId, u, p.pid, 0, none, true, some now⟩]) = [] := by
        rw [List.filter_append, List.filter_eq_nil_iff.mpr hnolive]
        simp [liveCartRow]
      exact hgoal
    · refine ⟨(⟨st.nextId, u, p.pid, 0, none, true, some now⟩ : OrderItemRec),
        ?_, rfl, rfl, rfl, rfl, rfl⟩
      exact List.mem_append_right _ (by simp)
  | some it =>
    have hlive : liveCartRow u p.pid it = true := List.find?_some hfind
    have hmem : it ∈ st.items := List.mem_of_find?_eq_some hfind
    obtain ⟨h1, h2, h3, h4⟩ :
        it.user = u ∧ it.productId = p.pid ∧ it.order = none ∧ it.is_deleted = false := by
      simpa [liveCartRow, and_assoc] using hlive
    have hcomp :
        ((st.items.map (fun j => if j.itemId = it.itemId
            then { it with quantity := 0 } else j)).map
          (fun j => if j.itemId = it.itemId
            then { j with is_deleted := true, deleted_at := some now } else j)) =
        st.items.map (fun j => if j.itemId = it.itemId
          then { it with quantity := 0, is_deleted := true, deleted_at := some now } else j) := by
      rw [List.map_map]
      apply List.map_congr_left
      intro j _
      by_cases hj : j.itemId = it.itemId
      · simp [Function.comp, hj]
      · simp [Function.comp, hj]
    simp only [toggleItem, hp, hfind, hcomp]
    refine ⟨rfl, ?_, ?_⟩
    · have hgoal : List.filter (liveCartRow u p.pid)
          (st.items.map (fun j => if j.itemId = it.itemId
            then { it with quantity := 0, is_deleted := true, deleted_at := some now }
            else j)) = [] := by
        rw [List.filter_eq_nil_iff]
        intro x hx
        rw [List.mem_map] at hx
        obtain ⟨j, hj, hje⟩ := hx
        by_cases hjid : j.itemId = it.itemId
        · rw [if_pos hjid] at hje
          rw [← hje]
          simp [liveCartRow]
        · rw [if_neg hjid] at hje
          rw [← hje]
          intro hxl
          exact hjid (congrArg OrderItemRec.itemId (huniq j hj it hmem hxl hlive))
      exact hgoal
    · refine ⟨{ it with quantity := 0, is_deleted := true, deleted_at := some now },
        ?_, h1, h2, h3, rfl, rfl⟩
      have hgoal : ({ it with quantity := 0, is_deleted := true, deleted_at := some now }
          : OrderItemRec) ∈ st.items.map (fun j => if j.itemId = it.itemId
            then { it with quantity := 0, is_deleted := true, deleted_at := some now }
            else j) := by
        rw [List.mem_map]
        exact ⟨it, hmem, by rw [if_pos rfl]⟩
      exact hgoal

theorem toggle_zero_soft_deletes_witness :
    (exCartSt.products.find? (fun pr => pr.slug = "p") = some ⟨1, "p"⟩) ∧
    (∀ i ∈ exCartSt.items, i.itemId ≠ exCartSt.nextId) ∧
    ((toggleItem exCartSt 7 "p" 0 5).1 = .ok .Removed none ∧
      (toggleItem exCartSt 7 "p" 0 5).2.items.filter
        (liveCartRow 7 (ProductRec.mk 1 "p").pid) = [] ∧
      ∃ i ∈ (toggleItem exCartSt 7 "p" 0 5).2.items,
        i.user = 7 ∧ i.productId = (ProductRec.mk 1 "p").pid ∧ i.order = none ∧
        i.is_deleted = true ∧ i.deleted_at = some 5) :=
  ⟨by decide, by decide,
    toggle_zero_soft_deletes exCartSt 7 5 "p" ⟨1, "p"⟩ (by decide) (by decide) (by decide)⟩

/-- C5: for every (user, product) pair and every quantity q > 0, calling
`toggleItem` twice with the same q leaves exactly one live OrderItem row keyed
(user, product, order = null), holding quantity q; the second call changes
nothing (idempotence — its post-state equals the first call's post-state) and
its result kind is Updated.  The hypotheses are the store invariants: distinct
primary keys, a fresh `nextId`, and at most one live cart row per key (the
§3 invariant the upsert maintains). -/
theorem toggle_idempotent_upsert (st : ShopState) (u q now1 now2 : Nat)
    (slug : String) (p : ProductRec)
    (hp : st.products.find? (fun pr => pr.slug = slug) = some p)
    (hq : q ≠ 0)
    (hnodup : st.items.Pairwise (fun a b => a.itemId ≠ b.itemId))
    (hfresh : ∀ i ∈ st.items, i.itemId ≠ st.nextId)
    (huniq : ∀ i ∈ st.items, ∀ j ∈ st.items,
      liveCartRow u p.pid i = true → liveCartRow u p.pid j = true → i = j) :
    ∃ it : OrderItemRec,
      (toggleItem (toggleItem st u slug q now1).2 u slug q now2).1 =
        .ok .Updated (some it) ∧
      it.user = u ∧ it.productId = p.pid ∧ it.order = none ∧ it.quantity = q ∧
      (toggleItem (toggleItem st u slug q now1).2 u slug q now2).2 =
        (toggleItem st u slug q now1).2 ∧
      (toggleItem st u slug q now1).2.items.filter (liveCartRow u p.pid) = [it] := by
  cases hfind : st.items.find? (liveCartRow u p.pid) with
  | none =>
    have hnolive : ∀ i ∈ st.items, ¬ liveCartRow u p.pid i = true :=
      List.find?_eq_none.mp hfind
    have hst1 : (toggleItem st u slug q now1).2 =
        { st with items := st.items ++ [⟨st.nextId, u, p.pid, q, none, false, none⟩],
                  nextId := st.nextId + 1 } := by
      simp only [toggleItem, hp, hfind, if_neg hq]
    have hlivenew : liveCartRow u p.pid ⟨st.nextId, u, p.pid, q, none, false, none⟩ = true := by
      simp [liveCartRow]
    have hfind2 : (st.items ++ [(⟨st.nextId, u, p.pid, q, none, false, none⟩ :
        OrderItemRec)]).find? (liveCartRow u p.pid) =
        some ⟨st.nextId, u, p.pid, q, none, false, none⟩ := by
      rw [List.find?_append, hfind, List.find?_cons_of_pos _ hlivenew]
      rfl
    have hmapid2 : (st.items ++ [(⟨st.nextId, u, p.pid, q, none, false, none⟩ :
        OrderItemRec)]).map
        (fun j => if j.itemId = st.nextId
          then ⟨st.nextId, u, p.pid, q, none, false, none⟩ else j) =
        st.items ++ [⟨st.nextId, u, p.pid, q, none, false, none⟩] := by
      rw [List.map_append]
      have h0 : ∀ j ∈ st.items,
          (if j.itemId = st.nextId
            then (⟨st.nextId, u, p.pid, q, none, false, none⟩ : OrderItemRec) else j) =
          id j := fun j hj => by rw [if_neg (hfresh j hj)]; rfl
      rw [List.map_congr_left h0, List.map_id]
      simp
    have hfilter : (st.items ++ [(⟨st.nextId, u, p.pid, q, none, false, none⟩ :
        OrderItemRec)]).filter (liveCartRow u p.pid) =
        [⟨st.nextId, u, p.pid, q, none, false, none⟩] := by
      rw [List.filter_append, List.filter_eq_nil_iff.mpr hnolive]
      simp [hlivenew]
    refine ⟨⟨st.nextId, u, p.pid, q, none, false, none⟩, ?_, rfl, rfl, rfl, rfl, ?_, ?_⟩
    · rw [hst1]
      simp only [toggleItem, hp, hfind2, if_neg hq]
    · rw [hst1]
      simp only [toggleItem, hp, hfind2, if_neg hq, hmapid2]
    · rw [hst1]
      exact hfilter
  | some it =>
    have hlive : liveCartRow u p.pid it = true := List.find?_some hfind
    have hmem : it ∈ st.items := List.mem_of_find?_eq_some hfind
    obtain ⟨hc1, hc2, hc3, hc4⟩ :
        it.user = u ∧ it.productId = p.pid ∧ it.order = none ∧ it.is_deleted = false := by
      simpa [liveCartRow, and_assoc] using hlive
    have hst1 : (toggleItem st u slug q now1).2 =
        { st with items := st.items.map (fun j => if j.itemId = it.itemId then { it with quantity := q } else j) } := by
      simp only [toggleItem, hp, hfind, if_neg hq]
    have hlive2 : liveCartRow u p.pid { it with quantity := q } = true := by
      simpa [liveCartRow] using hlive
    have hfind2 : (st.items.map
        (fun j => if j.itemId = it.itemId then { it with quantity := q } else j)).find?
          (liveCartRow u p.pid) = some { it with quantity := q } :=
      find?_map_key OrderItemRec.itemId (liveCartRow u p.pid) hnodup hfind hlive2
    have hmap3 : (st.items.map
        (fun j => if j.itemId = it.itemId then { it with quantity := q } else j)).map
          (fun j => if j.itemId = it.itemId then { it with quantity := q } else j) =
        st.items.map
          (fun j => if j.itemId = it.itemId then { it with quantity := q } else j) := by
      rw [List.map_map]
      apply List.map_congr_left
      intro j _
      by_cases hjid : j.itemId = it.itemId
      · simp [Function.comp, hjid]
      · simp [Function.comp, hjid]
    have hfilter : (st.items.map
        (fun j => if j.itemId = it.itemId then { it with quantity := q } else j)).filter
          (liveCartRow u p.pid) = [{ it with quantity := q }] := by
      rw [List.filter_map]
      have hcong : st.items.filter
          ((liveCartRow u p.pid) ∘
            (fun j => if j.itemId = it.itemId then { it with quantity := q } else j)) =
          st.items.filter (fun j => OrderItemRec.itemId j = OrderItemRec.itemId it) := by
        apply List.filter_congr
        intro j hj
        by_cases hjid : j.itemId = it.itemId
        · simp [Function.comp, hjid, hlive2]
        · cases hcase : liveCartRow u p.pid j with
          | false => simp [Function.comp, hjid, hcase]
          | true =>
            exact absurd (congrArg OrderItemRec.itemId (huniq j hj it hmem hcase hlive)) hjid
      rw [hcong, filter_key_eq OrderItemRec.itemId hnodup hmem]
      simp
    refine ⟨{ it with quantity := q }, ?_, ?_, ?_, ?_, rfl, ?_, ?_⟩
    · rw [hst1]
      simp only [toggleItem, hp, hfind2, if_neg hq]
    · exact hc1
    · exact hc2
    · exact hc3
    · rw [hst1]
      simp only [toggleItem, hp, hfind2, if_neg hq, hmap3]
    · rw [hst1]
      exact hfilter

theorem toggle_idempotent_upsert_witness :
    ∃ it : OrderItemRec,
      (toggleItem (toggleItem exCartSt 7 "p" 3 1).2 7 "p" 3 2).1 =
        .ok .Updated (some it) ∧
      it.user = 7 ∧ it.productId = 1 ∧ it.order = none ∧ it.quantity = 3 ∧
      (toggleItem (toggleItem exCartSt 7 "p" 3 1).2 7 "p" 3 2).2 =
        (toggleItem exCartSt 7 "p" 3 1).2 ∧
      (toggleItem exCartSt 7 "p" 3 1).2.items.filter (liveCartRow 7 1) = [it] :=
  toggle_idempotent_upsert exCartSt 7 3 1 2 "p" ⟨1, "p"⟩ (by decide) (by decide)
    (by decide) (by decide) (by decide)

/-- C6: for every (user, product) pair with no live review yet, calling
`submitReview` twice with different ratings leaves exactly one live Review
row for that pair, holding the rating and text of the second call; the first
call returns Created and the second Updated, each carrying the current Review
snapshot. -/
theorem review_upsert_created_then_updated (st : ShopState) (u pid ra1 ra2 : Nat)
    (t1 t2 : String) (p : ProductRec)
    (hp : st.products.find? (fun pr => pr.pid = pid) = some p)
    (hnone : st.reviews.find? (liveReview u p.pid) = none)
    (hfresh : ∀ r ∈ st.reviews, r.rid ≠ st.nextId)
    (hra : ra1 ≠ ra2) :
    (submitReview st u pid ra1 t1).1 = .created ⟨st.nextId, u, p.pid, ra1, t1, false, none⟩ ∧
    (submitReview (submitReview st u pid ra1 t1).2 u pid ra2 t2).1 =
      .updated ⟨st.nextId, u, p.pid, ra2, t2, false, none⟩ ∧
    (submitReview (submitReview st u pid ra1 t1).2 u pid ra2 t2).2.reviews.filter
      (liveReview u p.pid) = [⟨st.nextId, u, p.pid, ra2, t2, false, none⟩] := by
  have hst1 : (submitReview st u pid ra1 t1).2 =
      { st with reviews := st.reviews ++ [⟨st.nextId, u, p.pid, ra1, t1, false, none⟩],
                nextId := st.nextId + 1 } := by
    simp only [submitReview, hp, hnone]
  have hlive1 : liveReview u p.pid ⟨st.nextId, u, p.pid, ra1, t1, false, none⟩ = true := by
    simp [liveReview]
  have hfind2 : (st.reviews ++ [(⟨st.nextId, u, p.pid, ra1, t1, false, none⟩ :
      ReviewRec)]).find? (liveReview u p.pid) =
      some ⟨st.nextId, u, p.pid, ra1, t1, false, none⟩ := by
    rw [List.find?_append, hnone, List.find?_cons_of_pos _ hlive1]
    rfl
  have hmapr : (st.reviews ++ [(⟨st.nextId, u, p.pid, ra1, t1, false, none⟩ :
      ReviewRec)]).map
      (fun j => if j.rid = st.nextId
        then ⟨st.nextId, u, p.pid, ra2, t2, false, none⟩ else j) =
      st.reviews ++ [⟨st.nextId, u, p.pid, ra2, t2, false, none⟩] := by
    rw [List.map_append]
    have h0 : ∀ r ∈ st.reviews,
        (if r.rid = st.nextId
          then (⟨st.nextId, u, p.pid, ra2, t2, false, none⟩ : ReviewRec) else r) = id r :=
      fun r hr => by rw [if_neg (hfresh r hr)]; rfl
    rw [List.map_congr_left h0, List.map_id]
    simp
  refine ⟨?_, ?_, ?_⟩
  · simp only [submitReview, hp, hnone]
  · rw [hst1]
    simp only [submitReview, hp, hfind2]
  · rw [hst1]
    simp only [submitReview, hp, hfind2, hmapr]
    rw [List.filter_append,
      List.filter_eq_nil_iff.mpr (List.find?_eq_none.mp hnone)]
    simp [liveReview]

/-- Shared concrete state for the review claims: one product, one review
owned by user 9 (rid 3), fresh ids from 10. -/
def exRevSt : ShopState :=
  ⟨[⟨1, "p"⟩], [], [], [], [⟨3, 9, 1, 4, "ok", false, none⟩], 10⟩

theorem review_upsert_witness :
    (submitReview exEmptySt 7 1 4 "a").1 = .created ⟨2, 7, 1, 4, "a", false, none⟩ ∧
    (submitReview (submitReview exEmptySt 7 1 4 "a").2 7 1 5 "b").1 =
      .updated ⟨2, 7, 1, 5, "b", false, none⟩ ∧
    (submitReview (submitReview exEmptySt 7 1 4 "a").2 7 1 5 "b").2.reviews.filter
      (liveReview 7 1) = [⟨2, 7, 1, 5, "b", false, none⟩] :=
  review_upsert_created_then_updated exEmptySt 7 1 4 5 "a" "b" ⟨1, "p"⟩ (by decide)
    (by decide) (by decide) (by decide)

/-- C9: `deleteReview` never reaches its dead 404 guard (the name `product`
is the truthy itertools import), and the queryset it soft-deletes is filtered
by both the review id and the acting user: a review row is changed only when
its id matches `reviewId` and it belongs to `u`; when the review with that id
exists but belongs to a different user, the persisted state is unchanged. -/
theorem delete_review_owner_only (st : ShopState) (reviewId u now : Nat)
    (hnodup : st.reviews.Pairwise (fun a b => a.rid ≠ b.rid)) :
    (deleteReview st reviewId u now).1 = .deletedOk ∧
    (∀ i : Nat, ∀ r : ReviewRec, st.reviews[i]? = some r →
      (deleteReview st reviewId u now).2.reviews[i]? = some r ∨
        (r.rid = reviewId ∧ r.user = u)) ∧
    (∀ r0 ∈ st.reviews, r0.rid = reviewId → r0.user ≠ u →
      (deleteReview st reviewId u now).2 = st) := by
  refine ⟨rfl, ?_, ?_⟩
  · intro i r hr
    show (st.reviews.map (fun r =>
        if r.rid = reviewId && r.user = u && !r.is_deleted
        then { r with is_deleted := true, deleted_at := some now } else r))[i]? =
        some r ∨ (r.rid = reviewId ∧ r.user = u)
    rw [List.getElem?_map, hr, Option.map_some']
    by_cases hcond : (r.rid = reviewId && r.user = u && !r.is_deleted) = true
    · obtain ⟨ha, hb, -⟩ : r.rid = reviewId ∧ r.user = u ∧ r.is_deleted = false := by
        simpa [and_assoc] using hcond
      exact Or.inr ⟨ha, hb⟩
    · rw [if_neg hcond]
      exact Or.inl rfl
  · intro r0 hr0 hrid huser
    have hmapid : st.reviews.map (fun r =>
        if r.rid = reviewId && r.user = u && !r.is_deleted
        then { r with is_deleted := true, deleted_at := some now } else r) = st.reviews := by
      have h0 : ∀ r ∈ st.reviews,
          (if r.rid = reviewId && r.user = u && !r.is_deleted
            then { r with is_deleted := true, deleted_at := some now } else r) = id r := by
        intro r hr
        have hcond : (r.rid = reviewId && r.user = u && !r.is_deleted) = false := by
          by_cases hc : r.rid = reviewId
          · have hre : r = r0 :=
              key_inj_of_pairwise ReviewRec.rid hnodup hr hr0 (by rw [hc, hrid])
            rw [hre]
            simp [hrid, huser]
          · simp [hc]
        rw [if_neg (by simp [hcond])]
        rfl
      rw [List.map_congr_left h0, List.map_id]
    show ({ st with reviews := st.reviews.map (fun r =>
        if r.rid = reviewId && r.user = u && !r.is_deleted
        then { r with is_deleted := true, deleted_at := some now } else r) } : ShopState) = st
    rw [hmapid]

theorem delete_review_owner_only_witness :
    (deleteReview exRevSt 3 7 5).1 = .deletedOk ∧
    (∀ i : Nat, ∀ r : ReviewRec, exRevSt.reviews[i]? = some r →
      (deleteReview exRevSt 3 7 5).2.reviews[i]? = some r ∨
        (r.rid = 3 ∧ r.user = 7)) ∧
    (∀ r0 ∈ exRevSt.reviews, r0.rid = 3 → r0.user ≠ 7 →
      (deleteReview exRevSt 3 7 5).2 = exRevSt) :=
  delete_review_owner_only exRevSt 3 7 5 (by decide)

theorem default_order_by_id_desc_witness :
    List.Pairwise (fun a b : Row => b.id ≤ a.id) (get_queryset exOrderStore) :=
  default_order_by_id_desc exOrderStore
